import Mathlib

/-!
Shallow embedding of the Warp account-pool maintenance core
(`pool_maintenance.py` together with the constants of `config.py`).

Times are modelled as integer seconds.  Network and decoding effects are
modelled by explicit oracle values: each possible response of an external
service is a constructor of an inductive type, and the embedded functions
consume such a value exactly where the Python code performs the call.
The account store (the SQLite `accounts` table) is a list of rows.
-/

namespace PoolMaintenance

/-- Row of the `accounts` table (the fields the maintenance core touches). -/
structure Account where
  email : String
  id_token : String
  refresh_token : String
  status : String
  last_refresh_time : Option Int
deriving DecidableEq, Repr

/-- The account store: the `accounts` relation. -/
abbrev Store := List Account

/-- Constant `config.MIN_POOL_SIZE`. -/
def MIN_POOL_SIZE : Nat := 25

/-- Constant `config.TOKEN_REFRESH_HOURS`. -/
def TOKEN_REFRESH_HOURS : Int := 1

/-- Constant `config.MIN_QUOTA_THRESHOLD`. -/
def MIN_QUOTA_THRESHOLD : Int := 10

/-- Result of base64url-decoding and JSON-parsing the middle segment of a
JWT, abstracted: `fail` is any decode/parse error (anything making the
`try` block raise), `ok e` is a parsed JSON object whose `exp` field is
`e` (`none` when the field is absent; a present numeric value is carried
as an `Int`). -/
inductive MidDecode where
  | fail
  | ok (exp : Option Int)
deriving DecidableEq, Repr

/-- Default of the `buffer_minutes` parameter of `is_token_expired`. -/
def default_buffer_minutes : Int := 10

/-- Semantics of Python `str.split(sep)` for a one-character separator
`sep`, over the character list of the string: splitting the empty string
gives `[[]]`, and every occurrence of the separator opens a new chunk. -/
def splitOnChar (c : Char) : List Char → List (List Char)
  | [] => [[]]
  | x :: xs =>
    let r := splitOnChar c xs
    if x = c then [] :: r
    else
      match r with
      | [] => [[x]]
      | y :: ys => (x :: y) :: ys

/-- Python `id_token.split('.')` of the source, as a list of strings. -/
def split_dots (s : String) : List String :=
  (splitOnChar '.' s.data).map String.mk

/-- Function `TokenRefreshService.is_token_expired`.  `decode` is the oracle for
base64url+JSON decoding of the middle segment; `now` is `time.time()`.
A present `exp` equal to `0` is falsy in Python, hence treated as absent. -/
def is_token_expired (decode : String → MidDecode) (now : Int)
    (id_token : String) (buffer_minutes : Int) : Bool :=
  if id_token = "" then true
  else
    let parts := split_dots id_token
    if parts.length ≠ 3 then true
    else
      match decode (parts.getD 1 "") with
      | MidDecode.fail => true
      | MidDecode.ok none => true
      | MidDecode.ok (some exp) =>
        if exp = 0 then true
        else decide (exp - now ≤ buffer_minutes * 60)

/-- Function `TokenRefreshService.can_refresh_token`: `datetime.now()` is `now`,
the cooldown is `TOKEN_REFRESH_HOURS` hours (3600 seconds each). -/
def can_refresh_token (now : Int) (a : Account) : Bool :=
  match a.last_refresh_time with
  | none => true
  | some t => decide (now - t ≥ TOKEN_REFRESH_HOURS * 3600)

/-- Outcome of the HTTP exchange performed by
`TokenRefreshService.refresh_firebase_token`: a 2xx response whose JSON
body carries optional `id_token` / `refresh_token` fields, a non-2xx
response, or a transport-level exception. -/
inductive RefreshOutcome where
  | httpOk (id_token : Option String) (refresh_token : Option String)
  | httpErr (code : Nat) (text : String)
  | exn (msg : String)
deriving DecidableEq, Repr

/-- Function `TokenRefreshService.refresh_firebase_token`: returns
`(success, new id_token, new refresh_token-or-error-message)` exactly as
the source does. -/
def refresh_firebase_token : RefreshOutcome → Bool × Option String × Option String
  | RefreshOutcome.httpOk it rt => (true, it, rt)
  | RefreshOutcome.httpErr code text =>
    (false, none, some ("HTTP " ++ toString code ++ ": " ++ text))
  | RefreshOutcome.exn msg => (false, none, some msg)

/-- Per-row effect of the SQL `UPDATE accounts SET status = ? WHERE email = ?`. -/
def statusMap (e s : String) (a : Account) : Account :=
  if a.email = e then { a with status := s } else a

/-- Per-row effect of `DatabaseManager.update_account_token`: when a new
refresh token is provided both secrets are replaced, otherwise only the
bearer token; `last_refresh_time` is set to `now` in either case. -/
def tokenMap (e tok : String) (rtok : Option String) (now : Int) (a : Account) : Account :=
  if a.email = e then
    match rtok with
    | some r => { a with id_token := tok, refresh_token := r, last_refresh_time := some now }
    | none => { a with id_token := tok, last_refresh_time := some now }
  else a

/-- Function `DatabaseManager.update_account_status`. -/
def update_account_status (e s : String) (db : Store) : Store :=
  db.map (statusMap e s)

/-- Function `DatabaseManager.update_account_token`. -/
def update_account_token (e tok : String) (rtok : Option String) (now : Int)
    (db : Store) : Store :=
  db.map (tokenMap e tok rtok now)

/-- Function `DatabaseManager.get_all_accounts`: optional status filter. -/
def get_all_accounts (status : Option String) (db : Store) : List Account :=
  match status with
  | some s => db.filter (fun a => a.status == s)
  | none => db

/-- Function `DatabaseManager.get_account_by_email`: first row with that email. -/
def get_account_by_email (e : String) (db : Store) : Option Account :=
  db.find? (fun a => a.email == e)

/-- Row predicate of the purge DELETE: status `expired` and
`last_refresh_time` strictly before the cutoff (a NULL
`last_refresh_time` never satisfies the SQL comparison). -/
def should_purge (cutoff : Int) (a : Account) : Bool :=
  a.status == "expired" &&
    (match a.last_refresh_time with
     | some t => decide (t < cutoff)
     | none => false)

/-- Row-by-row scan of the DELETE of
`DatabaseManager.cleanup_expired_accounts`: returns the number of rows
deleted together with the remaining rows. -/
def purge_go (cutoff : Int) : List Account → Nat × List Account
  | [] => (0, [])
  | a :: rest =>
    let r := purge_go cutoff rest
    if should_purge cutoff a then (r.1 + 1, r.2) else (r.1, a :: r.2)

/-- Function `DatabaseManager.cleanup_expired_accounts`: the cutoff is
`datetime.now() - timedelta(days=days)`, i.e. `now - days * 86400` seconds. -/
def cleanup_expired_accounts (now days : Int) (db : Store) : Nat × Store :=
  purge_go (now - days * 86400) db

/-- Body of an HTTP-200 answer of the quota endpoint, abstracted: a
GraphQL `errors` envelope carrying its first message, a
`requestLimitInfo` object with optional numeric fields, or a body from
which the nested `requestLimitInfo` is absent (or falsy). -/
inductive Body200 where
  | errorsEnvelope (msg : String)
  | limitInfo (requestLimit : Option Int) (requestsUsed : Option Int)
  | missingFields
deriving DecidableEq, Repr

/-- Outcome of the HTTP exchange performed by
`PoolMaintainer._get_request_limit`: a transport/parse exception, or a
status code with (for 200) the abstracted body. -/
inductive QuotaResponse where
  | exn (msg : String)
  | http (code : Nat) (body : Body200)
deriving DecidableEq, Repr

/-- Value of the dictionary returned by `PoolMaintainer._get_request_limit`. -/
inductive QuotaResult where
  | success (requestLimit requestsUsed requestsRemaining : Int)
  | failure (error : String)
deriving DecidableEq, Repr

/-- Function `PoolMaintainer._get_request_limit`.  An empty bearer token is
rejected before the oracle (the network) is consulted; missing numeric
fields default to `0` as with Python `dict.get(key, 0)`. -/
def get_request_limit (id_token : String) (resp : QuotaResponse) : QuotaResult :=
  if id_token = "" then QuotaResult.failure "缺少ID Token"
  else
    match resp with
    | QuotaResponse.exn msg => QuotaResult.failure msg
    | QuotaResponse.http code body =>
      if code = 200 then
        match body with
        | Body200.errorsEnvelope m => QuotaResult.failure m
        | Body200.limitInfo l u =>
          QuotaResult.success (l.getD 0) (u.getD 0) (l.getD 0 - u.getD 0)
        | Body200.missingFields => QuotaResult.failure ("HTTP " ++ toString code)
      else QuotaResult.failure ("HTTP " ++ toString code)

/-- Function `TokenRefreshService.refresh_account_if_needed`: returns the boolean
of the source together with the store after its writes.  The Python test
`if success and new_id_token:` treats an absent or empty new token as a
failure. -/
def refresh_account_if_needed (decode : String → MidDecode) (now : Int)
    (r : RefreshOutcome) (a : Account) (db : Store) : Bool × Store :=
  if is_token_expired decode now a.id_token default_buffer_minutes = false then (true, db)
  else if can_refresh_token now a = false then (true, db)
  else
    match refresh_firebase_token r with
    | (true, some t, rt) =>
      if t = "" then (false, update_account_status a.email "expired" db)
      else (true, update_account_token a.email t rt now db)
    | (true, none, _) => (false, update_account_status a.email "expired" db)
    | (false, _, _) => (false, update_account_status a.email "expired" db)

/-- How one credential's verification ends: the counter it increments. -/
inductive Outcome where
  | healthy
  | lowQuota
  | failed
deriving DecidableEq, Repr

/-- Oracle for the effects of processing one credential inside
`PoolMaintainer.verify_accounts`: `refreshExn` (resp. `getExn`) injects
an unexpected exception at the refresh (resp. store re-read) step —
caught by the per-credential `except` —, `refresh` is the refresh
endpoint's answer and `quota` the quota endpoint's answer. -/
structure StepOracle where
  refreshExn : Bool
  refresh : RefreshOutcome
  getExn : Bool
  quota : QuotaResponse
deriving DecidableEq, Repr

/-- Steps of `PoolMaintainer.verify_accounts` after the refresh gate:
re-read the row, then query and act on the quota. -/
def quota_phase (o : StepOracle) (acct : Account) (db : Store) : Store × Outcome :=
  if o.getExn then (update_account_status acct.email "expired" db, Outcome.failed)
  else
    match get_account_by_email acct.email db with
    | none => (db, Outcome.failed)
    | some cur =>
      if cur.id_token = "" then (db, Outcome.failed)
      else
        match get_request_limit cur.id_token o.quota with
        | QuotaResult.success _ _ remaining =>
          if remaining < MIN_QUOTA_THRESHOLD then
            (update_account_status acct.email "expired" db, Outcome.lowQuota)
          else (db, Outcome.healthy)
        | QuotaResult.failure _ =>
          (update_account_status acct.email "expired" db, Outcome.failed)

/-- The per-credential body of the `for` loop of
`PoolMaintainer.verify_accounts` (one iteration, `try`/`except` included). -/
def process_account (decode : String → MidDecode) (now : Int) (o : StepOracle)
    (acct : Account) (db : Store) : Store × Outcome :=
  if o.refreshExn then (update_account_status acct.email "expired" db, Outcome.failed)
  else
    let r := refresh_account_if_needed decode now o.refresh acct db
    if r.1 then quota_phase o acct r.2 else (r.2, Outcome.failed)

/-- The three counters of `PoolMaintainer.verify_accounts`. -/
structure Counts where
  healthy : Nat
  lowQuota : Nat
  failed : Nat
deriving DecidableEq, Repr

/-- Initial counter values. -/
def Counts.zero : Counts := ⟨0, 0, 0⟩

/-- Sum of the three counters. -/
def countsSum (c : Counts) : Nat := c.healthy + c.lowQuota + c.failed

/-- Increment the counter selected by an outcome. -/
def addOutcome (c : Counts) : Outcome → Counts
  | Outcome.healthy => { c with healthy := c.healthy + 1 }
  | Outcome.lowQuota => { c with lowQuota := c.lowQuota + 1 }
  | Outcome.failed => { c with failed := c.failed + 1 }

/-- The `for` loop of `PoolMaintainer.verify_accounts` over the snapshot
of active accounts; `os i` is the oracle for the `i`-th iteration. -/
def verify_go (decode : String → MidDecode) (now : Int) (os : Nat → StepOracle) :
    List Account → Nat → Store → Counts → Store × Counts
  | [], _, db, c => (db, c)
  | a :: rest, i, db, c =>
    let r := process_account decode now (os i) a db
    verify_go decode now os rest (i + 1) r.1 (addOutcome c r.2)

/-- Function `PoolMaintainer.verify_accounts`: snapshot the active rows, then run
the per-credential loop from the initial counters. -/
def verify_accounts (decode : String → MidDecode) (now : Int)
    (os : Nat → StepOracle) (db : Store) : Store × Counts :=
  verify_go decode now os (get_all_accounts (some "active") db) 0 db Counts.zero

/-- Observable events of `PoolMaintainer.maintenance_loop`: a read of
`self.running` with the value obtained, one full maintenance cycle
(numbered as by the `cycle` counter), and the inter-cycle
`asyncio.sleep(config.MAINTENANCE_CHECK_INTERVAL)`. -/
inductive LoopEvent where
  | check (b : Bool)
  | cycle (n : Nat)
  | sleep
deriving DecidableEq, Repr

/-- Event trace of `maintenance_loop`: `flags k` is the value
`self.running` holds when the `while` condition is evaluated for the
`k`-th time (so a shutdown request during cycle `k+1` makes
`flags (k+1) = false`); `fuel` bounds the observed prefix of the
nonterminating loop.  Each iteration is: read the flag, and when it is
true run the cycle and then sleep unconditionally. -/
def maintenance_trace (flags : Nat → Bool) : Nat → Nat → List LoopEvent
  | 0, _ => []
  | fuel + 1, k =>
    if flags k then
      LoopEvent.check true :: LoopEvent.cycle (k + 1) :: LoopEvent.sleep ::
        maintenance_trace flags fuel (k + 1)
    else [LoopEvent.check false]

/-- Per-row evolution bound used for the verification-pass invariants:
`g` fixes every row whose email is outside `E`, never changes an email,
and either keeps a row's status or sets it to `expired`. -/
def RowUpd (E : List String) (g : Account → Account) : Prop :=
  ∀ x : Account,
    (x.email ∉ E → g x = x) ∧ (g x).email = x.email ∧
      ((g x).status = x.status ∨ (g x).status = "expired")

/-! Concrete inputs used to exercise the embedded operations. -/

/-- A decoding oracle for which every middle segment is unparsable. -/
def decodeFail : String → MidDecode := fun _ => MidDecode.fail

/-- A decoding oracle distinguishing an unparsable segment (`"u"`), a
payload without `exp` (`"n"`), and a payload with `exp = 1000`. -/
def decode6 : String → MidDecode := fun s =>
  if s = "u" then MidDecode.fail
  else if s = "n" then MidDecode.ok none
  else MidDecode.ok (some 1000)

/-- An active account whose bearer token is malformed and whose last
refresh is recent (1000 seconds before time 1000000). -/
def acct0 : Account := ⟨"a@x.com", "h.p.s", "r", "active", some 999000⟩

/-- Oracle: refresh endpoint answers HTTP 500, quota endpoint HTTP 401. -/
def o0 : StepOracle :=
  ⟨false, RefreshOutcome.httpErr 500 "boom", false,
    QuotaResponse.http 401 Body200.missingFields⟩

/-- An active account that has never been refreshed. -/
def acct4 : Account := ⟨"d@x.com", "q.w.e", "r4", "active", none⟩

/-- Oracle: refresh endpoint answers HTTP 400. -/
def o4 : StepOracle :=
  ⟨false, RefreshOutcome.httpErr 400 "bad", false, QuotaResponse.exn "unused"⟩

/-- An active account that has never been refreshed. -/
def acct5 : Account := ⟨"c@x.com", "f.g.h", "r5", "active", none⟩

/-- Oracle: quota endpoint answers 200 with limit 10 and 1 used. -/
def o5 : StepOracle :=
  ⟨false, RefreshOutcome.httpOk none none, false,
    QuotaResponse.http 200 (Body200.limitInfo (some 10) (some 1))⟩

/-- A decoding oracle whose payload always carries a far-future expiry. -/
def decode5 : String → MidDecode := fun _ => MidDecode.ok (some 10000000)

/-- Oracle raising an unexpected exception at the refresh step. -/
def oExn : StepOracle :=
  ⟨true, RefreshOutcome.httpOk none none, false, QuotaResponse.exn "unused"⟩

/-- A blocked account sharing no email with `acct0`. -/
def acct9 : Account := ⟨"b@x.com", "z.z.z", "r9", "blocked", some 0⟩

/-- Running-flag schedule: true at reading 0, false afterwards (a
shutdown request arriving during the first cycle). -/
def flags0 : Nat → Bool := fun k => k == 0

/-! ## Theorems -/

-- `update_account_status` changes no field other than `status`.
theorem status_update_frame (e s : String) (db : Store) :
    (update_account_status e s db).map
        (fun a => (a.email, a.id_token, a.refresh_token, a.last_refresh_time))
      = db.map (fun a => (a.email, a.id_token, a.refresh_token, a.last_refresh_time)) := by
  induction db with
  | nil => rfl
  | cons a l ih =>
    simp only [update_account_status, List.map_cons] at ih ⊢
    rw [ih]
    have : statusMap e s a = if a.email = e then { a with status := s } else a := rfl
    rw [this]
    split <;> rfl

/-- Claim C1, counterexample.  An active credential whose bearer token is
expired (unparsable middle segment) and whose refresh is on cooldown
(last refresh 1000 s ago, cooldown 3600 s) is not left untouched by one
verification pass: the pass goes on to the quota check with the stale
token and, the quota call failing, writes status `expired` for it. -/
theorem claim_c1_counterexample :
    is_token_expired decodeFail 1000000 acct0.id_token default_buffer_minutes = true ∧
      can_refresh_token 1000000 acct0 = false ∧
      acct0.status = "active" ∧
      (verify_accounts decodeFail 1000000 (fun _ => o0) [acct0]).1
        = [{ acct0 with status := "expired" }] := by decide

/-- Claim C1, amended: an expired-but-cooling-down credential is treated
as provisionally valid at the refresh gate — `refresh_account_if_needed`
returns true and performs no store write — but the verification pass
then proceeds to the quota phase (store re-read and quota check) with
the current token instead of skipping it. -/
theorem claim_c1 (decode : String → MidDecode) (now : Int) (o : StepOracle)
    (acct : Account) (db : Store)
    (h1 : is_token_expired decode now acct.id_token default_buffer_minutes = true)
    (h2 : can_refresh_token now acct = false)
    (h3 : o.refreshExn = false) :
    refresh_account_if_needed decode now o.refresh acct db = (true, db) ∧
      process_account decode now o acct db = quota_phase o acct db := by
  have hr : refresh_account_if_needed decode now o.refresh acct db = (true, db) := by
    simp [refresh_account_if_needed, h1, h2]
  exact ⟨hr, by simp [process_account, h3, hr]⟩

/-- Claim C1, witness. -/
theorem claim_c1_witness :
    refresh_account_if_needed decodeFail 1000000 o0.refresh acct0 [acct0] = (true, [acct0]) ∧
      process_account decodeFail 1000000 o0 acct0 [acct0] = quota_phase o0 acct0 [acct0] :=
  claim_c1 decodeFail 1000000 o0 acct0 [acct0] (by decide) (by decide) (by decide)

/-- Claim C2: an empty bearer token makes the quota inspector fail
immediately with the missing-token error whatever the network would have
answered (the oracle is not consulted); an HTTP-200 answer without the
quota fields yields the failure the source labels `HTTP 200`; and every
successful result satisfies `remaining = limit - used`. -/
theorem claim_c2 :
    (∀ resp, get_request_limit "" resp = QuotaResult.failure "缺少ID Token") ∧
      (∀ tok, tok ≠ "" →
        get_request_limit tok (QuotaResponse.http 200 Body200.missingFields)
          = QuotaResult.failure ("HTTP " ++ toString 200)) ∧
      (∀ tok resp l u r,
        get_request_limit tok resp = QuotaResult.success l u r → r = l - u) := by
  refine ⟨?_, ?_, ?_⟩
  · intro resp
    simp [get_request_limit]
  · intro tok h
    simp [get_request_limit, h]
  · intro tok resp l u r h
    by_cases htok : tok = "" <;> simp [get_request_limit, htok] at h
    cases resp with
    | exn m => simp at h
    | http code body =>
      by_cases hc : code = 200 <;> simp [hc] at h
      cases body with
      | errorsEnvelope m => simp at h
      | limitInfo l2 u2 =>
        simp at h
        omega
      | missingFields => simp at h

/-- Claim C2, witness. -/
theorem claim_c2_witness :
    get_request_limit "t" (QuotaResponse.http 200 Body200.missingFields)
        = QuotaResult.failure ("HTTP " ++ toString 200) ∧
      (3 : Int) = 5 - 2 :=
  ⟨claim_c2.2.1 "t" (by decide),
    claim_c2.2.2 "t" (QuotaResponse.http 200 (Body200.limitInfo (some 5) (some 2)))
      5 2 3 (by decide)⟩

/-- Claim C4: when the bearer token is expired, refresh is permitted and
the refresh call fails, the pass marks the credential `expired`, counts
it failed, consults no quota oracle, and the status write leaves every
other field of every row unchanged. -/
theorem claim_c4 (decode : String → MidDecode) (now : Int) (o : StepOracle)
    (acct : Account) (db : Store)
    (h3 : o.refreshExn = false)
    (h1 : is_token_expired decode now acct.id_token default_buffer_minutes = true)
    (h2 : can_refresh_token now acct = true)
    (hf : (refresh_firebase_token o.refresh).1 = false ∨
      (refresh_firebase_token o.refresh).2.1 = none ∨
      (refresh_firebase_token o.refresh).2.1 = some "") :
    process_account decode now o acct db
        = (update_account_status acct.email "expired" db, Outcome.failed) ∧
      (∀ q, process_account decode now { o with quota := q } acct db
        = process_account decode now o acct db) ∧
      (update_account_status acct.email "expired" db).map
          (fun a => (a.email, a.id_token, a.refresh_token, a.last_refresh_time))
        = db.map (fun a => (a.email, a.id_token, a.refresh_token, a.last_refresh_time)) := by
  obtain ⟨rex, rr, gex, qq⟩ := o
  simp only at h3 hf
  have hfail : refresh_account_if_needed decode now rr acct db
      = (false, update_account_status acct.email "expired" db) := by
    cases rr with
    | httpOk it rt =>
      simp [refresh_firebase_token] at hf
      cases it with
      | none => simp [refresh_account_if_needed, h1, h2, refresh_firebase_token]
      | some s =>
        simp at hf
        simp [refresh_account_if_needed, h1, h2, refresh_firebase_token, hf]
    | httpErr code text =>
      simp [refresh_account_if_needed, h1, h2, refresh_firebase_token]
    | exn m =>
      simp [refresh_account_if_needed, h1, h2, refresh_firebase_token]
  subst h3
  refine ⟨by simp [process_account, hfail], ?_, status_update_frame _ _ _⟩
  intro q
  simp [process_account, hfail]

/-- Claim C4, witness. -/
theorem claim_c4_witness :
    process_account decodeFail 0 o4 acct4 [acct4]
      = (update_account_status acct4.email "expired" [acct4], Outcome.failed) :=
  (claim_c4 decodeFail 0 o4 acct4 [acct4] (by decide) (by decide) (by decide)
    (Or.inl (by decide))).1

/-- Claim C5: a credential reaching the quota check with a successful
quota result keeps its status and is counted healthy when
`remaining ≥ MIN_QUOTA_THRESHOLD`, and is set to `expired` and counted
low-quota when `remaining < MIN_QUOTA_THRESHOLD`; the threshold is 10. -/
theorem claim_c5 (decode : String → MidDecode) (now : Int) (o : StepOracle)
    (acct : Account) (db : Store) (cur : Account) (l u r : Int)
    (hx : o.refreshExn = false) (hg : o.getExn = false)
    (hfresh : is_token_expired decode now acct.id_token default_buffer_minutes = false)
    (hcur : get_account_by_email acct.email db = some cur)
    (htok : cur.id_token ≠ "")
    (hq : get_request_limit cur.id_token o.quota = QuotaResult.success l u r) :
    (MIN_QUOTA_THRESHOLD ≤ r → process_account decode now o acct db = (db, Outcome.healthy)) ∧
      (r < MIN_QUOTA_THRESHOLD → process_account decode now o acct db
        = (update_account_status acct.email "expired" db, Outcome.lowQuota)) ∧
      MIN_QUOTA_THRESHOLD = 10 := by
  have hr : refresh_account_if_needed decode now o.refresh acct db = (true, db) := by
    simp [refresh_account_if_needed, hfresh]
  have hp : process_account decode now o acct db = quota_phase o acct db := by
    simp [process_account, hx, hr]
  refine ⟨?_, ?_, rfl⟩
  · intro hge
    rw [hp]
    simp [quota_phase, hg, hcur, htok, hq, not_lt.mpr hge]
  · intro hlt
    rw [hp]
    simp [quota_phase, hg, hcur, htok, hq, hlt]

/-- Claim C5, witness: remaining `9 = MIN_QUOTA_THRESHOLD - 1` demotes. -/
theorem claim_c5_witness :
    process_account decode5 0 o5 acct5 [acct5]
      = (update_account_status acct5.email "expired" [acct5], Outcome.lowQuota) :=
  (claim_c5 decode5 0 o5 acct5 [acct5] acct5 10 1 9 (by decide) (by decide)
    (by decide) (by decide) (by decide) (by decide)).2.1 (by decide)

/-- Claim C6: fewer than 3 dot-separated segments, an unparsable middle
segment, or an absent `exp` field each make `is_token_expired` answer
true; for a well-formed token (3 segments, numeric nonzero `exp`) the
answer is true exactly when `exp - now ≤ buffer * 60`; the default
buffer is 10 minutes. -/
theorem claim_c6 (decode : String → MidDecode) (now buffer : Int) (tok : String) :
    ((split_dots tok).length < 3 → is_token_expired decode now tok buffer = true) ∧
      ((split_dots tok).length = 3 →
        decode ((split_dots tok).getD 1 "") = MidDecode.fail →
        is_token_expired decode now tok buffer = true) ∧
      ((split_dots tok).length = 3 →
        decode ((split_dots tok).getD 1 "") = MidDecode.ok none →
        is_token_expired decode now tok buffer = true) ∧
      (∀ e : Int, e ≠ 0 → (split_dots tok).length = 3 →
        decode ((split_dots tok).getD 1 "") = MidDecode.ok (some e) →
        (is_token_expired decode now tok buffer = true ↔ e - now ≤ buffer * 60)) ∧
      default_buffer_minutes = 10 := by
  by_cases htok : tok = ""
  · subst htok
    refine ⟨fun _ => by simp [is_token_expired], ?_, ?_, ?_, rfl⟩
    · intro h
      exact absurd h (by decide)
    · intro h
      exact absurd h (by decide)
    · intro e _ h
      exact absurd h (by decide)
  · refine ⟨?_, ?_, ?_, ?_, rfl⟩
    · intro hlt
      have hne : (split_dots tok).length ≠ 3 := by omega
      simp [is_token_expired, htok, hne]
    · intro h3 hd
      have hlen : 1 < (split_dots tok).length := by omega
      rw [List.getD_eq_getElem?_getD, List.getElem?_eq_getElem hlen,
        Option.getD_some] at hd
      simp [is_token_expired, htok, h3, hd]
    · intro h3 hd
      have hlen : 1 < (split_dots tok).length := by omega
      rw [List.getD_eq_getElem?_getD, List.getElem?_eq_getElem hlen,
        Option.getD_some] at hd
      simp [is_token_expired, htok, h3, hd]
    · intro e he h3 hd
      have hlen : 1 < (split_dots tok).length := by omega
      rw [List.getD_eq_getElem?_getD, List.getElem?_eq_getElem hlen,
        Option.getD_some] at hd
      simp [is_token_expired, htok, h3, hd, he]

/-- Claim C6, witness. -/
theorem claim_c6_witness :
    is_token_expired decode6 500 "a.g.c" 10 = true :=
  ((claim_c6 decode6 500 10 "a.g.c").2.2.2.1 1000 (by decide) (by decide)
    (by decide)).mpr (by decide)

/-- Claim C7: `can_refresh_token` is true exactly when the credential was
never refreshed or at least `TOKEN_REFRESH_HOURS` hours elapsed; inside
the cooldown window it is false whatever the rest of the account (in
particular its bearer token) holds. -/
theorem claim_c7 (now : Int) (a : Account) :
    (can_refresh_token now a = true ↔
      a.last_refresh_time = none ∨
        ∃ t, a.last_refresh_time = some t ∧ TOKEN_REFRESH_HOURS * 3600 ≤ now - t) ∧
      (∀ t, a.last_refresh_time = some t → now - t < TOKEN_REFRESH_HOURS * 3600 →
        can_refresh_token now a = false) := by
  constructor
  · cases hlt : a.last_refresh_time with
    | none => simp [can_refresh_token, hlt]
    | some t => simp [can_refresh_token, hlt, ge_iff_le]
  · intro t ht hbound
    simp [can_refresh_token, ht, ge_iff_le]
    omega

/-- Claim C7, witness. -/
theorem claim_c7_witness : can_refresh_token 1000000 acct0 = false :=
  (claim_c7 1000000 acct0).2 999000 rfl (by decide)

-- The purge scan deletes exactly the rows satisfying `should_purge` and
-- counts them.
theorem purge_go_spec (cutoff : Int) (l : List Account) :
    purge_go cutoff l
      = (l.countP (should_purge cutoff), l.filter (fun a => ! should_purge cutoff a)) := by
  induction l with
  | nil => simp [purge_go]
  | cons a l ih =>
    simp only [purge_go, ih, List.countP_cons, List.filter_cons]
    by_cases h : should_purge cutoff a = true
    · simp [h]
    · simp at h
      simp [h]

/-- Claim C8: the purge deletes exactly the rows with status `expired`
and a `last_refresh_time` strictly older than `now - days` days, keeps
every other row, returns the number deleted; with a 7-day window, of two
expired rows refreshed 10 and 3 days ago only the former is deleted and
the count is 1. -/
theorem claim_c8 (now days : Int) (db : Store) :
    (cleanup_expired_accounts now days db).1
        = db.countP (should_purge (now - days * 86400)) ∧
      (cleanup_expired_accounts now days db).2
        = db.filter (fun a => ! should_purge (now - days * 86400) a) ∧
      (∀ (c : Int) (a : Account), should_purge c a = true ↔
        a.status = "expired" ∧ ∃ t, a.last_refresh_time = some t ∧ t < c) ∧
      cleanup_expired_accounts 0 7
          [⟨"old", "t1", "r1", "expired", some (-864000)⟩,
            ⟨"recent", "t2", "r2", "expired", some (-259200)⟩]
        = (1, [⟨"recent", "t2", "r2", "expired", some (-259200)⟩]) := by
  refine ⟨?_, ?_, ?_, by decide⟩
  · simp [cleanup_expired_accounts, purge_go_spec]
  · simp [cleanup_expired_accounts, purge_go_spec]
  · intro c a
    cases h : a.last_refresh_time <;> simp [should_purge, h]

/-- Claim C8, witness. -/
theorem claim_c8_witness :
    should_purge 0 (⟨"e", "t", "r", "expired", some (-1)⟩ : Account) = true :=
  ((claim_c8 0 7 []).2.2.1 0 ⟨"e", "t", "r", "expired", some (-1)⟩).mpr
    ⟨rfl, -1, rfl, by decide⟩

-- Each processed credential bumps exactly one counter.
theorem countsSum_addOutcome (c : Counts) (out : Outcome) :
    countsSum (addOutcome c out) = countsSum c + 1 := by
  cases out <;> simp [countsSum, addOutcome] <;> omega

-- The verification loop counts every listed credential exactly once.
theorem verify_go_counts (decode : String → MidDecode) (now : Int)
    (os : Nat → StepOracle) (accts : List Account) :
    ∀ (i : Nat) (db : Store) (c : Counts),
      countsSum (verify_go decode now os accts i db c).2 = countsSum c + accts.length := by
  induction accts with
  | nil => intro i db c; simp [verify_go]
  | cons a rest ih =>
    intro i db c
    simp only [verify_go]
    rw [ih, countsSum_addOutcome, List.length_cons]
    omega

/-- Claim C10: an unexpected exception while processing one credential is
absorbed at the per-credential boundary — the credential is set to
`expired`, counted failed, and the loop moves to the next credential on
the updated store — and no exception shortens the pass: the three
counters always total the number of active credentials listed at the
start. -/
theorem claim_c10 (decode : String → MidDecode) (now : Int) (os : Nat → StepOracle)
    (a : Account) (rest : List Account) (i : Nat) (db : Store) (c : Counts)
    (h : (os i).refreshExn = true) :
    verify_go decode now os (a :: rest) i db c
        = verify_go decode now os rest (i + 1)
            (update_account_status a.email "expired" db) (addOutcome c Outcome.failed) ∧
      ∀ (db2 : Store) (os2 : Nat → StepOracle),
        countsSum (verify_accounts decode now os2 db2).2
          = (get_all_accounts (some "active") db2).length := by
  constructor
  · have hp : process_account decode now (os i) a db
        = (update_account_status a.email "expired" db, Outcome.failed) := by
      simp [process_account, h]
    simp only [verify_go, hp]
  · intro db2 os2
    have h2 := verify_go_counts decode now os2 (get_all_accounts (some "active") db2) 0 db2
      Counts.zero
    simp [verify_accounts, countsSum, Counts.zero] at h2 ⊢
    omega

/-- Claim C10, witness. -/
theorem claim_c10_witness :
    verify_go decodeFail 0 (fun _ => oExn) [acct0] 0 [acct0] Counts.zero
      = verify_go decodeFail 0 (fun _ => oExn) [] 1
          (update_account_status acct0.email "expired" [acct0])
          (addOutcome Counts.zero Outcome.failed) :=
  (claim_c10 decodeFail 0 (fun _ => oExn) acct0 [] 0 [acct0] Counts.zero (by decide)).1

-- Every cycle event of the loop trace sits directly after a check-true
-- event and directly before a sleep event.
theorem trace_cycle_shape :
    ∀ (fuel : Nat) (flags : Nat → Bool) (k i n : Nat),
      (maintenance_trace flags fuel k).get? i = some (LoopEvent.cycle n) →
      ∃ j, i = j + 1 ∧
        (maintenance_trace flags fuel k).get? j = some (LoopEvent.check true) ∧
        (maintenance_trace flags fuel k).get? (i + 1) = some LoopEvent.sleep := by
  intro fuel
  induction fuel with
  | zero => intro flags k i n h; simp [maintenance_trace] at h
  | succ fuel ih =>
    intro flags k i n h
    by_cases hf : flags k
    · simp only [maintenance_trace, hf, if_true] at h ⊢
      rcases i with _ | _ | _ | m
      · simp [List.get?] at h
      · exact ⟨0, rfl, by simp [List.get?], by simp [List.get?]⟩
      · simp [List.get?] at h
      · obtain ⟨j, hj1, hj2, hj3⟩ := ih flags (k + 1) m n (by simpa [List.get?] using h)
        refine ⟨j + 3, by omega, by simpa [List.get?] using hj2, ?_⟩
        have : m + 3 + 1 = (m + 1) + 3 := by omega
        rw [this]
        simpa [List.get?] using hj3
    · simp only [maintenance_trace, hf, if_false] at h
      rcases i with _ | m
      · simp [List.get?] at h
      · simp [List.get?] at h

/-- Claim C3, counterexample.  The loop body is "check the flag, run the
cycle, then sleep unconditionally": in the trace of a run whose flag
turns false during the first cycle, the sleep event (index 2) is not
immediately preceded by any flag check (index 1 is the cycle), so the
flag is not checked between a cycle and the following inter-cycle sleep,
and the sleep still happens after shutdown was requested. -/
theorem claim_c3_counterexample :
    flags0 0 = true ∧ flags0 1 = false ∧
      (maintenance_trace flags0 2 0).get? 2 = some LoopEvent.sleep ∧
      ∀ b, (maintenance_trace flags0 2 0).get? 1 ≠ some (LoopEvent.check b) := by
  decide

/-- Claim C3, amended: the running flag is checked once per iteration,
before the cycle only; every cycle is immediately preceded by a
check-true and immediately followed by the unconditional sleep; a false
flag stops the loop with no further cycle; and a shutdown requested
during a cycle lets that cycle and one more sleep complete before the
loop exits at the next top-of-loop check — an in-flight verification is
never interrupted. -/
theorem claim_c3 (flags : Nat → Bool) (fuel k : Nat) :
    (∀ i n, (maintenance_trace flags fuel k).get? i = some (LoopEvent.cycle n) →
      ∃ j, i = j + 1 ∧
        (maintenance_trace flags fuel k).get? j = some (LoopEvent.check true) ∧
        (maintenance_trace flags fuel k).get? (i + 1) = some LoopEvent.sleep) ∧
      (flags k = false → maintenance_trace flags (fuel + 1) k = [LoopEvent.check false]) ∧
      (flags k = true → flags (k + 1) = false →
        maintenance_trace flags (fuel + 2) k
          = [LoopEvent.check true, LoopEvent.cycle (k + 1), LoopEvent.sleep,
              LoopEvent.check false]) := by
  refine ⟨fun i n h => trace_cycle_shape fuel flags k i n h, ?_, ?_⟩
  · intro h
    simp [maintenance_trace, h]
  · intro h1 h2
    simp [maintenance_trace, h1, h2]

/-- Claim C3, witness. -/
theorem claim_c3_witness :
    maintenance_trace flags0 2 0
      = [LoopEvent.check true, LoopEvent.cycle 1, LoopEvent.sleep,
          LoopEvent.check false] :=
  (claim_c3 flags0 0 0).2.2 (by decide) (by decide)

-- The identity is a row update bound by any email set.
theorem rowUpd_id (E : List String) : RowUpd E id :=
  fun _ => ⟨fun _ => rfl, rfl, Or.inl rfl⟩

-- Row update bounds compose.
theorem rowUpd_comp (E : List String) (g g' : Account → Account)
    (hg : RowUpd E g) (hg' : RowUpd E g') : RowUpd E (fun x => g' (g x)) := by
  intro x
  obtain ⟨h1, h2, h3⟩ := hg x
  obtain ⟨h1', h2', h3'⟩ := hg' (g x)
  refine ⟨?_, ?_, ?_⟩
  · intro hx
    show g' (g x) = x
    rw [h1 hx]
    exact (hg' x).1 hx
  · rw [h2', h2]
  · rcases h3' with h | h
    · rw [h]
      exact h3
    · exact Or.inr h

-- Demoting one listed email to `expired` is a bounded row update.
theorem rowUpd_statusMap (E : List String) (e : String) (he : e ∈ E) :
    RowUpd E (statusMap e "expired") := by
  intro x
  refine ⟨?_, ?_, ?_⟩
  · intro hx
    have hne : x.email ≠ e := fun hh => hx (hh ▸ he)
    simp [statusMap, hne]
  · by_cases hx : x.email = e <;> simp [statusMap, hx]
  · by_cases hx : x.email = e
    · exact Or.inr (by simp [statusMap, hx])
    · exact Or.inl (by simp [statusMap, hx])

-- Replacing the tokens of one listed email is a bounded row update.
theorem rowUpd_tokenMap (E : List String) (e tok : String) (rtok : Option String)
    (now : Int) (he : e ∈ E) : RowUpd E (tokenMap e tok rtok now) := by
  intro x
  refine ⟨?_, ?_, ?_⟩
  · intro hx
    have hne : x.email ≠ e := fun hh => hx (hh ▸ he)
    simp [tokenMap, hne]
  · by_cases hx : x.email = e <;> cases rtok <;> simp [tokenMap, hx]
  · refine Or.inl ?_
    by_cases hx : x.email = e <;> cases rtok <;> simp [tokenMap, hx]

-- The refresh step only performs bounded row updates on the store.
theorem refresh_store (decode : String → MidDecode) (now : Int) (r : RefreshOutcome)
    (acct : Account) (db : Store) (E : List String) (he : acct.email ∈ E) :
    ∃ g, (refresh_account_if_needed decode now r acct db).2 = db.map g ∧ RowUpd E g := by
  unfold refresh_account_if_needed
  split
  · exact ⟨id, (List.map_id db).symm, rowUpd_id E⟩
  · split
    · exact ⟨id, (List.map_id db).symm, rowUpd_id E⟩
    · split
      · split
        · exact ⟨statusMap acct.email "expired", rfl, rowUpd_statusMap E acct.email he⟩
        · exact ⟨tokenMap acct.email _ _ now, rfl, rowUpd_tokenMap E acct.email _ _ now he⟩
      · exact ⟨statusMap acct.email "expired", rfl, rowUpd_statusMap E acct.email he⟩
      · exact ⟨statusMap acct.email "expired", rfl, rowUpd_statusMap E acct.email he⟩

-- The quota phase only performs bounded row updates on the store.
theorem quota_store (o : StepOracle) (acct : Account) (db : Store)
    (E : List String) (he : acct.email ∈ E) :
    ∃ g, (quota_phase o acct db).1 = db.map g ∧ RowUpd E g := by
  unfold quota_phase
  split
  · exact ⟨statusMap acct.email "expired", rfl, rowUpd_statusMap E acct.email he⟩
  · split
    · exact ⟨id, (List.map_id db).symm, rowUpd_id E⟩
    · split
      · exact ⟨id, (List.map_id db).symm, rowUpd_id E⟩
      · split
        · split
          · exact ⟨statusMap acct.email "expired", rfl, rowUpd_statusMap E acct.email he⟩
          · exact ⟨id, (List.map_id db).symm, rowUpd_id E⟩
        · exact ⟨statusMap acct.email "expired", rfl, rowUpd_statusMap E acct.email he⟩

-- One credential's processing only performs bounded row updates.
theorem process_store (decode : String → MidDecode) (now : Int) (o : StepOracle)
    (acct : Account) (db : Store) (E : List String) (he : acct.email ∈ E) :
    ∃ g, (process_account decode now o acct db).1 = db.map g ∧ RowUpd E g := by
  unfold process_account
  split
  · exact ⟨statusMap acct.email "expired", rfl, rowUpd_statusMap E acct.email he⟩
  · obtain ⟨g1, hg1, hr1⟩ := refresh_store decode now o.refresh acct db E he
    by_cases hb : (refresh_account_if_needed decode now o.refresh acct db).1 = true
    · obtain ⟨g2, hg2, hr2⟩ :=
        quota_store o acct ((refresh_account_if_needed decode now o.refresh acct db).2) E he
      refine ⟨fun x => g2 (g1 x), ?_, rowUpd_comp E g1 g2 hr1 hr2⟩
      simp only [hb, if_true]
      rw [hg2, hg1, List.map_map]
      rfl
    · refine ⟨g1, ?_, hr1⟩
      simp only [hb, if_false]
      exact hg1

-- The whole verification fold only performs bounded row updates.
theorem verify_go_store (decode : String → MidDecode) (now : Int)
    (os : Nat → StepOracle) (E : List String) :
    ∀ (accts : List Account), (∀ a ∈ accts, a.email ∈ E) →
      ∀ (i : Nat) (db : Store) (c : Counts),
        ∃ h, (verify_go decode now os accts i db c).1 = db.map h ∧ RowUpd E h := by
  intro accts
  induction accts with
  | nil =>
    intro _ i db c
    exact ⟨id, by simp [verify_go], rowUpd_id E⟩
  | cons a rest ih =>
    intro hmem i db c
    obtain ⟨g1, hg1, hr1⟩ :=
      process_store decode now (os i) a db E (hmem a (List.mem_cons_self a rest))
    obtain ⟨h2, hh2, hr2⟩ := ih (fun x hx => hmem x (List.mem_cons_of_mem a hx)) (i + 1)
      ((process_account decode now (os i) a db).1)
      (addOutcome c (process_account decode now (os i) a db).2)
    refine ⟨fun x => h2 (g1 x), ?_, rowUpd_comp E g1 h2 hr1 hr2⟩
    simp only [verify_go]
    rw [hh2, hg1, List.map_map]
    rfl

-- With pairwise-distinct emails, the email determines the row.
theorem email_inj :
    ∀ (db : Store), (db.map Account.email).Nodup →
      ∀ a ∈ db, ∀ b ∈ db, a.email = b.email → a = b := by
  intro db
  induction db with
  | nil => intro _ a ha; cases ha
  | cons x l ih =>
    intro hn a ha b hb heq
    rw [List.map_cons, List.nodup_cons] at hn
    obtain ⟨hx, hl⟩ := hn
    rcases List.mem_cons.mp ha with rfl | ha2 <;> rcases List.mem_cons.mp hb with rfl | hb2
    · rfl
    · exact absurd (by rw [heq]; exact List.mem_map_of_mem _ hb2) hx
    · exact absurd (by rw [← heq]; exact List.mem_map_of_mem _ ha2) hx
    · exact ih hl a ha2 b hb2 heq

-- With pairwise-distinct emails, lookup by a member's email finds it.
theorem find?_of_nodup :
    ∀ (db : Store), (db.map Account.email).Nodup →
      ∀ a ∈ db, db.find? (fun x => x.email == a.email) = some a := by
  intro db
  induction db with
  | nil => intro _ a ha; cases ha
  | cons x l ih =>
    intro hn a ha
    rw [List.map_cons, List.nodup_cons] at hn
    obtain ⟨hx, hl⟩ := hn
    by_cases hxa : x.email = a.email
    · have hax : a = x := by
        rcases List.mem_cons.mp ha with rfl | ha2
        · rfl
        · exact absurd (by rw [hxa]; exact List.mem_map_of_mem _ ha2) hx
      subst hax
      simp [List.find?_cons]
    · have ha2 : a ∈ l := by
        rcases List.mem_cons.mp ha with rfl | h
        · exact absurd rfl hxa
        · exact h
      have hfalse : (x.email == a.email) = false := by simp [hxa]
      simp only [List.find?_cons, hfalse]
      exact ih hl a ha2

-- Lookup by email commutes with an email-preserving row map.
theorem find?_map_email (g : Account → Account) (hg : ∀ x, (g x).email = x.email)
    (e : String) :
    ∀ (db : Store),
      (db.map g).find? (fun x => x.email == e)
        = (db.find? (fun x => x.email == e)).map g := by
  intro db
  induction db with
  | nil => rfl
  | cons x l ih =>
    rw [List.map_cons]
    simp only [List.find?_cons, hg]
    cases hx : x.email == e
    · simpa [hx] using ih
    · simp [hx]

/-- Claim C9: over a store with pairwise-distinct emails, a verification
pass leaves every non-`active` row exactly as it was (looking it up
afterwards returns the untouched row), and every row of the resulting
store is either its original row or a row that was `active` at the start
and now carries status `active` or `expired` — so the pass never writes
`active` or `blocked`, and never resurrects an `expired` row. -/
theorem claim_c9 (decode : String → MidDecode) (now : Int) (os : Nat → StepOracle)
    (db : Store) (hn : (db.map Account.email).Nodup) :
    (∀ a ∈ db, a.status ≠ "active" →
      get_account_by_email a.email (verify_accounts decode now os db).1 = some a) ∧
      (∀ b ∈ (verify_accounts decode now os db).1, ∃ a, a ∈ db ∧ b.email = a.email ∧
        (b = a ∨ (a.status = "active" ∧ (b.status = "active" ∨ b.status = "expired")))) := by
  have hmem : ∀ a ∈ get_all_accounts (some "active") db,
      a.email ∈ (db.filter (fun a => a.status == "active")).map Account.email := by
    intro a ha
    exact List.mem_map_of_mem _ (by simpa [get_all_accounts] using ha)
  obtain ⟨h, hh, hr⟩ := verify_go_store decode now os
    ((db.filter (fun a => a.status == "active")).map Account.email)
    (get_all_accounts (some "active") db) hmem 0 db Counts.zero
  have hfinal : (verify_accounts decode now os db).1 = db.map h := by
    simpa [verify_accounts] using hh
  have hEactive : ∀ a ∈ db,
      a.email ∈ (db.filter (fun a => a.status == "active")).map Account.email →
      a.status = "active" := by
    intro a ha hae
    obtain ⟨a', ha', heq⟩ := List.mem_map.mp hae
    have ha'db : a' ∈ db := (List.mem_filter.mp ha').1
    have ha'act : a'.status = "active" := by simpa using (List.mem_filter.mp ha').2
    have haa : a = a' := email_inj db hn a ha a' ha'db heq.symm
    rw [haa]
    exact ha'act
  constructor
  · intro a ha hstat
    have hae : a.email ∉ (db.filter (fun a => a.status == "active")).map Account.email :=
      fun h' => hstat (hEactive a ha h')
    have hfix : h a = a := (hr a).1 hae
    rw [hfinal]
    unfold get_account_by_email
    rw [find?_map_email h (fun x => (hr x).2.1) a.email db, find?_of_nodup db hn a ha]
    simp [hfix]
  · intro b hb
    rw [hfinal] at hb
    obtain ⟨a, ha, rfl⟩ := List.mem_map.mp hb
    refine ⟨a, ha, (hr a).2.1, ?_⟩
    by_cases hae : a.email ∈ (db.filter (fun a => a.status == "active")).map Account.email
    · have hact := hEactive a ha hae
      rcases (hr a).2.2 with hs | hs
      · exact Or.inr ⟨hact, Or.inl (by rw [hs, hact])⟩
      · exact Or.inr ⟨hact, Or.inr hs⟩
    · exact Or.inl ((hr a).1 hae)

/-- Claim C9, witness: a blocked row is untouched by the pass. -/
theorem claim_c9_witness :
    get_account_by_email acct9.email
        (verify_accounts decodeFail 1000000 (fun _ => o0) [acct0, acct9]).1
      = some acct9 :=
  (claim_c9 decodeFail 1000000 (fun _ => o0) [acct0, acct9] (by decide)).1 acct9
    (by decide) (by decide)

end PoolMaintenance
example : PoolMaintenance.is_token_expired (fun _ => PoolMaintenance.MidDecode.fail) 0 "a.b.c" 10 = true := by decide
example : PoolMaintenance.is_token_expired (fun _ => PoolMaintenance.MidDecode.ok (some 1000)) 500 "a.b.c" 10 = true := by decide
example : PoolMaintenance.is_token_expired (fun _ => PoolMaintenance.MidDecode.ok (some 10000)) 500 "a.b.c" 10 = false := by decide
